import Mathlib

/-!
Shallow embedding of `packages/core/src/service/services/role.service.ts`
(Vendure `RoleService`): channel-scoped RBAC over Role entities.

Permission identifiers are modelled as strings (the TypeScript `Permission`
enum is a string enum), entity ids as naturals, and the durable store as an
explicit list of roles threaded through each operation.  Operations that can
throw return the store together with an `Except`; the store component of the
result shows exactly which writes happened before a throw.  A `writes`
counter in the store counts every `save` call, so "performs no persistence
write" is expressible even when a write would store identical data.
-/

namespace RoleService

/-- Modelled from the spec: the closed Permission Catalog (the generated
`Permission` string enum lives outside the provided sources).  It contains
the reserved identifiers `Authenticated` and `Owner` and the members the
spec names (`CreateAdministrator`, `ReadCatalog`). -/
def permissionCatalog : List String :=
  ["Authenticated", "CreateAdministrator", "Owner", "ReadCatalog"]

/-- Modelled from the spec: `SUPER_ADMIN_ROLE_CODE` from shared-constants
(outside the provided sources); the spec calls it `SUPER_ADMIN`. -/
def SUPER_ADMIN_ROLE_CODE : String := "SUPER_ADMIN"

/-- Modelled from the spec: `CUSTOMER_ROLE_CODE` from shared-constants. -/
def CUSTOMER_ROLE_CODE : String := "CUSTOMER"

/-- Modelled from the spec: `SUPER_ADMIN_ROLE_DESCRIPTION` (fixed text). -/
def SUPER_ADMIN_ROLE_DESCRIPTION : String := "SuperAdmin"

/-- Modelled from the spec: `CUSTOMER_ROLE_DESCRIPTION` (fixed text). -/
def CUSTOMER_ROLE_DESCRIPTION : String := "Customer"

/-- A Role entity: id, unique code, description, permission list, channel ids. -/
structure Role where
  id : Nat
  code : String
  description : String
  permissions : List String
  channels : List Nat
deriving Repr, DecidableEq

/-- A Channel entity (only its id matters to this core). -/
structure Channel where
  id : Nat
deriving Repr, DecidableEq

/-- A User entity with its roles (and, through them, the roles' channels). -/
structure User where
  id : Nat
  roles : List Role
deriving Repr, DecidableEq

/-- The request context: the acting user (if any) and the active channel. -/
structure RequestContext where
  activeUserId : Option Nat
  channel : Channel
deriving Repr, DecidableEq

/-- The error taxonomy of the service, mirroring
`EntityNotFoundError` / `ForbiddenError` / `InternalServerError` /
`UserInputError` from `common/error/errors`. -/
inductive ServiceError where
  | entityNotFound (entityName : String) (id : Nat)
  | forbidden
  | internalServer (message : String) (roleCode : Option String)
  | userInput (message : String) (permission : String)
deriving Repr, DecidableEq

/-- The durable role store: the persisted roles, the next id the store will
assign, and a counter of save calls (persistence writes). -/
structure RoleStore where
  roles : List Role
  nextId : Nat
  writes : Nat
deriving Repr, DecidableEq

/-- The empty store, before any bootstrap has run. -/
def emptyStore : RoleStore := { roles := [], nextId := 1, writes := 0 }

/-- Elements of the list not yet seen, keeping the first occurrence of each. -/
def uniqueAux {α : Type} [DecidableEq α] : List α → List α → List α
  | [], _ => []
  | x :: xs, seen =>
    if x ∈ seen then uniqueAux xs seen else x :: uniqueAux xs (x :: seen)

/-- Modelled from the spec: `unique` from `@vendure/common/lib/unique`
(outside the provided sources) removes duplicates keeping the first
occurrence of each element. -/
def unique {α : Type} [DecidableEq α] (l : List α) : List α := uniqueAux l []

/-- `CreateRoleInput` from the generated types. -/
structure CreateRoleInput where
  code : String
  description : String
  permissions : List String
  channelId : Option Nat
deriving Repr, DecidableEq

/-- `UpdateRoleInput` from the generated types: every field but the id is
optional (absent means "leave untouched"). -/
structure UpdateRoleInput where
  id : Nat
  code : Option String
  description : Option String
  permissions : Option (List String)
deriving Repr, DecidableEq

/-- `getAllPermissions`: all the valid Permission values
(`Object.values(Permission)`). -/
def getAllPermissions : List String := permissionCatalog

/-- `Object.values(Permission).filter(p => p !== Permission.Owner)` as
computed by `ensureSuperAdminRoleExists`. -/
def allPermissionsExceptOwner : List String :=
  permissionCatalog.filter (fun p => p ≠ "Owner")

/-- `checkPermissionsAreValid`: `none` when the (optional) permission list
passes, otherwise `some p` for the first `p` not in the catalog — the
permission named by the thrown `UserInputError`. -/
def checkPermissionsAreValid (permissions : Option (List String)) : Option String :=
  match permissions with
  | none => none
  | some ps => ps.find? (fun p => !(getAllPermissions.contains p))

/-- `findOne`: fetch a role by id (`connection.manager.findOne(Role, roleId)`). -/
def findOne (st : RoleStore) (roleId : Nat) : Option Role :=
  st.roles.find? (fun r => r.id == roleId)

/-- `getRoleByCode`: fetch a role by its unique code. -/
def getRoleByCode (st : RoleStore) (code : String) : Option Role :=
  st.roles.find? (fun r => r.code == code)

/-- Saving a brand-new entity (`connection.manager.save(new Role(...))`):
the store assigns the next id, appends the row and counts one write. -/
def insertRole (st : RoleStore) (code description : String)
    (permissions : List String) (channels : List Nat) : Role × RoleStore :=
  let r : Role := { id := st.nextId, code := code, description := description,
                    permissions := permissions, channels := channels }
  (r, { roles := st.roles ++ [r], nextId := st.nextId + 1, writes := st.writes + 1 })

/-- Saving an already-persisted entity: the row with the same id is
replaced; one write is counted. -/
def saveExisting (st : RoleStore) (r : Role) : RoleStore :=
  { roles := st.roles.map (fun x => if x.id == r.id then r else x),
    nextId := st.nextId, writes := st.writes + 1 }

/-- `createRoleForChannel`: build a role whose permission set is
`unique([Permission.Authenticated, ...input.permissions])`, bind it to the
single given channel, and persist it. -/
def createRoleForChannel (st : RoleStore) (input : CreateRoleInput)
    (channel : Channel) : Role × RoleStore :=
  insertRole st input.code input.description
    (unique ("Authenticated" :: input.permissions)) [channel.id]

/-- Modelled from the spec: `getUserChannelsPermissions` from
`service/helpers/utils/get-user-channels-permissions` (outside the provided
sources) — for each channel appearing in some of the user's roles, the
union of the permissions of every role of the user that includes that
channel.  `channelPerms` is that union for one channel. -/
def channelPerms (u : User) (c : Nat) : List String :=
  (u.roles.filter (fun r => r.channels.contains c)).flatMap Role.permissions

/-- Modelled from the spec (continued): the per-channel projection itself. -/
def getUserChannelsPermissions (u : User) : List (Nat × List String) :=
  (unique (u.roles.flatMap Role.channels)).map (fun c => (c, channelPerms u c))

/-- `userHasPermissionOnChannel`: load the user (throwing
`EntityNotFoundError` if absent), project permissions by channel, and test
membership on the entry for the requested channel. -/
def userHasPermissionOnChannel (users : List User) (userId channelId : Nat)
    (permission : String) : Except ServiceError Bool :=
  match users.find? (fun u => u.id == userId) with
  | none => .error (.entityNotFound "User" userId)
  | some user =>
    match (getUserChannelsPermissions user).find? (fun e => e.1 == channelId) with
    | none => .ok false
    | some e => .ok (e.2.contains permission)

/-- The target-channel resolution step of `create`: an explicit
`input.channelId` must resolve via `getEntityOrThrow(Channel, ...)`
(throwing `EntityNotFoundError` otherwise); absent, the context's active
channel is used. -/
def resolveTargetChannel (channels : List Channel) (ctx : RequestContext)
    (channelId : Option Nat) : Except ServiceError Channel :=
  match channelId with
  | none => .ok ctx.channel
  | some cid =>
    match channels.find? (fun c => c.id == cid) with
    | none => .error (.entityNotFound "Channel" cid)
    | some ch => .ok ch

/-- `create`: validate permissions, resolve the target channel, require an
acting user, require `CreateAdministrator` on the target channel, then
persist via `createRoleForChannel`.  The returned store shows the writes
performed up to a throw. -/
def create (st : RoleStore) (channels : List Channel) (users : List User)
    (ctx : RequestContext) (input : CreateRoleInput) :
    RoleStore × Except ServiceError Role :=
  match checkPermissionsAreValid (some input.permissions) with
  | some p => (st, .error (.userInput "error.permission-invalid" p))
  | none =>
    match resolveTargetChannel channels ctx input.channelId with
    | .error e => (st, .error e)
    | .ok targetChannel =>
      match ctx.activeUserId with
      | none => (st, .error .forbidden)
      | some uid =>
        match userHasPermissionOnChannel users uid targetChannel.id "CreateAdministrator" with
        | .error e => (st, .error e)
        | .ok false => (st, .error .forbidden)
        | .ok true =>
          let rs := createRoleForChannel st input targetChannel
          (rs.2, .ok rs.1)

/-- Modelled from the spec: `patchEntity` from
`service/helpers/utils/patch-entity` (outside the provided sources) — only
fields present in the patch overwrite the entity's fields.  `update` passes
`permissions` already normalized (or `undefined` when absent from input). -/
def patchRole (role : Role) (input : UpdateRoleInput) : Role :=
  { role with
    code := input.code.getD role.code,
    description := input.description.getD role.description,
    permissions :=
      match input.permissions with
      | some ps => unique ("Authenticated" :: ps)
      | none => role.permissions }

/-- `update`: validate permissions, load the role (throwing
`EntityNotFoundError` if absent), refuse the protected system roles with
`InternalServerError`, patch, save, and re-read the stored value. -/
def update (st : RoleStore) (input : UpdateRoleInput) :
    RoleStore × Except ServiceError Role :=
  match checkPermissionsAreValid input.permissions with
  | some p => (st, .error (.userInput "error.permission-invalid" p))
  | none =>
    match findOne st input.id with
    | none => (st, .error (.entityNotFound "Role" input.id))
    | some role =>
      if role.code == SUPER_ADMIN_ROLE_CODE || role.code == CUSTOMER_ROLE_CODE then
        (st, .error (.internalServer "error.cannot-modify-role" (some role.code)))
      else
        let updatedRole := patchRole role input
        let st2 := saveExisting st updatedRole
        match findOne st2 role.id with
        | some r => (st2, .ok r)
        | none => (st2, .error (.internalServer "error.entity-not-found" none))

/-- Modelled from the spec: `channelService.getDefaultChannel()` always
succeeds after system init and returns the installation's single default
channel. -/
def defaultChannel : Channel := { id := 1 }

/-- `ensureSuperAdminRoleExists`: if the SuperAdmin role exists, self-heal
its permission set when any of `allPermissionsExceptOwner` is missing by
overwriting it to that full set; if the lookup fails, create the role on
the default channel with the full set. -/
def ensureSuperAdminRoleExists (st : RoleStore) : RoleStore :=
  match getRoleByCode st SUPER_ADMIN_ROLE_CODE with
  | some superAdminRole =>
    if allPermissionsExceptOwner.all (fun p => superAdminRole.permissions.contains p) then
      st
    else
      saveExisting st { superAdminRole with permissions := allPermissionsExceptOwner }
  | none =>
    (createRoleForChannel st
      { code := SUPER_ADMIN_ROLE_CODE, description := SUPER_ADMIN_ROLE_DESCRIPTION,
        permissions := allPermissionsExceptOwner, channelId := none }
      defaultChannel).2

/-- `ensureCustomerRoleExists`: no action when the Customer role exists;
otherwise create it on the default channel with permissions
`[Authenticated]`. -/
def ensureCustomerRoleExists (st : RoleStore) : RoleStore :=
  match getRoleByCode st CUSTOMER_ROLE_CODE with
  | some _ => st
  | none =>
    (createRoleForChannel st
      { code := CUSTOMER_ROLE_CODE, description := CUSTOMER_ROLE_DESCRIPTION,
        permissions := ["Authenticated"], channelId := none }
      defaultChannel).2

/-- `initRoles`: ensure SuperAdmin, then ensure Customer. -/
def initRoles (st : RoleStore) : RoleStore :=
  ensureCustomerRoleExists (ensureSuperAdminRoleExists st)

/-! ## Helper lemmas -/

/-- An element is produced by `uniqueAux` iff it is in the list and not in
the seen accumulator. -/
theorem mem_uniqueAux {α : Type} [DecidableEq α] :
    ∀ (l seen : List α) (a : α), a ∈ uniqueAux l seen ↔ a ∈ l ∧ a ∉ seen
  | [], seen, a => by simp [uniqueAux]
  | x :: xs, seen, a => by
    by_cases hx : x ∈ seen
    · rw [uniqueAux, if_pos hx, mem_uniqueAux xs seen a, List.mem_cons]
      by_cases ha : a = x <;> simp [ha, hx]
    · rw [uniqueAux, if_neg hx, List.mem_cons, mem_uniqueAux xs (x :: seen) a]
      simp only [List.mem_cons]
      by_cases ha : a = x <;> simp [ha, hx]

/-- Membership is preserved by `unique`. -/
theorem mem_unique {α : Type} [DecidableEq α] (l : List α) (a : α) :
    a ∈ unique l ↔ a ∈ l := by
  simp [unique, mem_uniqueAux]

/-- `uniqueAux` produces a duplicate-free list. -/
theorem nodup_uniqueAux {α : Type} [DecidableEq α] :
    ∀ (l seen : List α), (uniqueAux l seen).Nodup
  | [], _ => by simp [uniqueAux]
  | x :: xs, seen => by
    by_cases hx : x ∈ seen
    · rw [uniqueAux, if_pos hx]
      exact nodup_uniqueAux xs seen
    · rw [uniqueAux, if_neg hx]
      refine List.nodup_cons.mpr ⟨fun hmem => ?_, nodup_uniqueAux xs (x :: seen)⟩
      exact ((mem_uniqueAux xs (x :: seen) x).mp hmem).2 (List.mem_cons_self x seen)

/-- `unique` produces a duplicate-free list. -/
theorem nodup_unique {α : Type} [DecidableEq α] (l : List α) : (unique l).Nodup :=
  nodup_uniqueAux l []

/-- `find?` over a list of pairs built by tagging each key with a payload
reduces to `find?` over the keys. -/
theorem find_map_pair (cs : List Nat) (f : Nat → List String) (cId : Nat) :
    ((cs.map (fun c => (c, f c))).find? (fun e => e.1 == cId)) =
      (cs.find? (fun c => c == cId)).map (fun c => (c, f c)) := by
  induction cs with
  | nil => rfl
  | cons x xs ih =>
    by_cases h : x = cId
    · simp [List.find?, h]
    · rw [List.map_cons, List.find?_cons_of_neg _ (by simpa using h),
        List.find?_cons_of_neg _ (by simpa using h), ih]

/-- After replacing every row whose id matches, `find?` by that id returns
the replacement (provided some row matched before). -/
theorem find_id_after_replace :
    ∀ (l : List Role) (i : Nat) (r2 : Role), r2.id = i →
      (l.find? (fun x => x.id == i)).isSome = true →
      ((l.map (fun x => if x.id == r2.id then r2 else x)).find?
        (fun x => x.id == i)) = some r2
  | [], _, _, _, h => by simp [List.find?] at h
  | x :: l, i, r2, hid, h => by
    by_cases hx : x.id = i
    · simp [List.find?, hx, hid]
    · rw [List.find?_cons_of_neg _ (by simpa using hx)] at h
      rw [List.map_cons, if_neg (by simpa [hid] using hx),
        List.find?_cons_of_neg _ (by simpa using hx)]
      exact find_id_after_replace l i r2 hid h

/-- After replacing every row whose id matches `r2.id`, `find?` by a code
that `r2` carries still finds a row, namely `r2`, provided the original
first row with that code had `r2`'s id. -/
theorem find_code_after_replace :
    ∀ (l : List Role) (code : String) (r r2 : Role),
      l.find? (fun x => x.code == code) = some r → r2.id = r.id → r2.code = code →
      ((l.map (fun x => if x.id == r2.id then r2 else x)).find?
        (fun x => x.code == code)) = some r2
  | [], _, _, _, h, _, _ => by simp [List.find?] at h
  | x :: l, code, r, r2, h, hid, hcode => by
    by_cases hx : x.code = code
    · have hxr : x = r := by
        rw [List.find?_cons_of_pos _ (by simpa using hx)] at h
        exact Option.some.inj h
      subst hxr
      rw [List.map_cons, if_pos (by simpa using hid.symm),
        List.find?_cons_of_pos _ (by simpa using hcode)]
    · rw [List.find?_cons_of_neg _ (by simpa using hx)] at h
      by_cases hxid : x.id = r2.id
      · rw [List.map_cons, if_pos (by simpa using hxid),
          List.find?_cons_of_pos _ (by simpa using hcode)]
      · rw [List.map_cons, if_neg (by simpa using hxid),
          List.find?_cons_of_neg _ (by simpa using hx)]
        exact find_code_after_replace l code r r2 h hid hcode

/-- Membership in the per-channel permission union equals having some role
with that channel carrying the permission. -/
theorem mem_userChannelPerms (u : User) (cId : Nat) (p : String) :
    p ∈ channelPerms u cId ↔
      ∃ r, r ∈ u.roles ∧ cId ∈ r.channels ∧ p ∈ r.permissions := by
  simp only [channelPerms, List.mem_flatMap, List.mem_filter]
  constructor
  · rintro ⟨r, ⟨hr, hc⟩, hp⟩
    exact ⟨r, hr, by simpa using hc, hp⟩
  · rintro ⟨r, hr, hc, hp⟩
    exact ⟨r, ⟨hr, by simpa using hc⟩, hp⟩

/-! ## C1 -/

/-- C1: `userHasPermissionOnChannel(u, c, p)` answers true iff some role of
the user is bound to the channel and carries the permission; it answers
false in every other case (in particular when the channel is in none of the
user's roles), and it fails with `EntityNotFoundError` when the user does
not exist. -/
theorem userHasPermissionOnChannel_correct (users : List User) (uId cId : Nat) (p : String) :
    (users.find? (fun u => u.id == uId) = none →
      userHasPermissionOnChannel users uId cId p =
        Except.error (ServiceError.entityNotFound "User" uId)) ∧
    (∀ u, users.find? (fun u2 => u2.id == uId) = some u →
      (userHasPermissionOnChannel users uId cId p = Except.ok true ↔
        ∃ r, r ∈ u.roles ∧ cId ∈ r.channels ∧ p ∈ r.permissions) ∧
      (userHasPermissionOnChannel users uId cId p = Except.ok false ↔
        ¬ ∃ r, r ∈ u.roles ∧ cId ∈ r.channels ∧ p ∈ r.permissions)) := by
  constructor
  · intro h
    unfold userHasPermissionOnChannel
    rw [h]
  · intro u hu
    cases hfind : (unique (u.roles.flatMap Role.channels)).find? (fun c => c == cId) with
    | none =>
      have hnot : ¬ ∃ r, r ∈ u.roles ∧ cId ∈ r.channels := by
        rw [List.find?_eq_none] at hfind
        rintro ⟨r, hr, hc⟩
        exact hfind cId ((mem_unique _ _).mpr (List.mem_flatMap.mpr ⟨r, hr, hc⟩)) (by simp)
      have hval : userHasPermissionOnChannel users uId cId p = Except.ok false := by
        simp only [userHasPermissionOnChannel, getUserChannelsPermissions, hu]
        rw [find_map_pair, hfind]
        rfl
      rw [hval]
      constructor
      · simp only [Except.ok.injEq]
        constructor
        · intro h
          cases h
        · rintro ⟨r, hr, hc, _⟩
          exact absurd ⟨r, hr, hc⟩ hnot
      · simp only [Except.ok.injEq, true_iff]
        rintro ⟨r, hr, hc, _⟩
        exact hnot ⟨r, hr, hc⟩
    | some c =>
      have hc_eq : c = cId := by
        have := List.find?_some hfind
        simpa using this
      subst hc_eq
      have hval : userHasPermissionOnChannel users uId c p =
          Except.ok ((channelPerms u c).contains p) := by
        simp only [userHasPermissionOnChannel, getUserChannelsPermissions, hu]
        rw [find_map_pair, hfind]
        rfl
      have hb : ((channelPerms u c).contains p) = true ↔
          ∃ r, r ∈ u.roles ∧ c ∈ r.channels ∧ p ∈ r.permissions := by
        rw [← mem_userChannelPerms]
        simp
      rw [hval]
      constructor
      · simpa only [Except.ok.injEq] using hb
      · simp only [Except.ok.injEq]
        rw [← hb]
        simp

/-- A sample role used by concrete witnesses. -/
def demoRole : Role :=
  { id := 10, code := "editor", description := "demo role",
    permissions := ["Authenticated", "ReadCatalog"], channels := [1, 2] }

/-- A sample user holding `demoRole`, used by concrete witnesses. -/
def demoUser : User := { id := 7, roles := [demoRole] }

/-- C1 witness: the correctness theorem evaluated on a concrete user,
channel and permission, and on a missing user. -/
theorem userHasPermissionOnChannel_correct_witness :
    userHasPermissionOnChannel [demoUser] 7 2 "ReadCatalog" = Except.ok true ∧
    userHasPermissionOnChannel [demoUser] 7 3 "ReadCatalog" = Except.ok false ∧
    userHasPermissionOnChannel [demoUser] 8 2 "ReadCatalog" =
      Except.error (ServiceError.entityNotFound "User" 8) := by
  refine ⟨?_, ?_, ?_⟩
  · exact ((userHasPermissionOnChannel_correct [demoUser] 7 2 "ReadCatalog").2 demoUser
      (by rfl)).1.mpr ⟨demoRole, by simp [demoUser], by decide, by decide⟩
  · exact ((userHasPermissionOnChannel_correct [demoUser] 7 3 "ReadCatalog").2 demoUser
      (by rfl)).2.mpr (by decide)
  · exact (userHasPermissionOnChannel_correct [demoUser] 8 2 "ReadCatalog").1 (by rfl)

/-! ## C2 -/

/-- The stored SuperAdmin role used in concrete counterexamples. -/
def storedSuperAdmin : Role :=
  { id := 1, code := SUPER_ADMIN_ROLE_CODE, description := SUPER_ADMIN_ROLE_DESCRIPTION,
    permissions := allPermissionsExceptOwner, channels := [1] }

/-- A store holding exactly the SuperAdmin role. -/
def storeWithSuperAdmin : RoleStore :=
  { roles := [storedSuperAdmin], nextId := 2, writes := 0 }

/-- C2 counterexample: an update input that resolves to the SuperAdmin role
but carries an invalid permission fails with `UserInputError` (the
validation step throws first), not with `InternalServerError`; so "every
update input whose resolved role's code is SUPER_ADMIN or CUSTOMER fails
with InternalError" is false as stated. -/
theorem update_superadmin_can_fail_without_internal_error :
    (findOne storeWithSuperAdmin 1).map Role.code = some SUPER_ADMIN_ROLE_CODE ∧
    update storeWithSuperAdmin
        { id := 1, code := none, description := none, permissions := some ["Bogus"] } =
      (storeWithSuperAdmin,
        Except.error (ServiceError.userInput "error.permission-invalid" "Bogus")) ∧
    (update storeWithSuperAdmin
        { id := 1, code := none, description := none, permissions := some ["Bogus"] }).2 ≠
      Except.error (ServiceError.internalServer "error.cannot-modify-role"
        (some SUPER_ADMIN_ROLE_CODE)) := by
  exact ⟨rfl, rfl, fun h => ServiceError.noConfusion (Except.error.inj h)⟩

/-- C2 (amended): for every update input whose permission list passes
validation and whose resolved role's code is SUPER_ADMIN or CUSTOMER,
update fails with `InternalServerError` naming the offending code and
performs no persistence write (inputs with an invalid permission fail
earlier with `UserInputError`, equally without a write). -/
theorem update_protected_role_internal_error (st : RoleStore) (input : UpdateRoleInput)
    (role : Role)
    (hv : checkPermissionsAreValid input.permissions = none)
    (hf : findOne st input.id = some role)
    (hc : role.code = SUPER_ADMIN_ROLE_CODE ∨ role.code = CUSTOMER_ROLE_CODE) :
    update st input =
      (st, Except.error (ServiceError.internalServer "error.cannot-modify-role"
        (some role.code))) := by
  have hcb : (role.code == SUPER_ADMIN_ROLE_CODE || role.code == CUSTOMER_ROLE_CODE) = true := by
    rcases hc with h | h <;> simp [h]
  simp only [update, hv, hf, hcb, if_true]

/-- C2 witness: the amended theorem evaluated at a concrete store holding
the SuperAdmin role and a concrete description-only update input. -/
theorem update_protected_role_internal_error_witness :
    update storeWithSuperAdmin
        { id := 1, code := none, description := some "x", permissions := none } =
      (storeWithSuperAdmin,
        Except.error (ServiceError.internalServer "error.cannot-modify-role"
          (some SUPER_ADMIN_ROLE_CODE))) :=
  update_protected_role_internal_error storeWithSuperAdmin
    { id := 1, code := none, description := some "x", permissions := none }
    storedSuperAdmin rfl rfl (Or.inl rfl)

/-! ## C3 -/

/-- C3: when the permission list contains an identifier outside the
catalog, both `create` and `update` fail with `UserInputError` naming the
first invalid permission in list order, and return the store unchanged (no
write) — for every store, channel list, user list and context, showing the
validation precedes channel lookup, authorization and mutation. -/
theorem invalid_permission_rejected_first (st : RoleStore) (channels : List Channel)
    (users : List User) (ctx : RequestContext) (input : CreateRoleInput)
    (uinput : UpdateRoleInput) (p : String) :
    (checkPermissionsAreValid (some input.permissions) = some p →
      create st channels users ctx input =
        (st, Except.error (ServiceError.userInput "error.permission-invalid" p))) ∧
    (checkPermissionsAreValid uinput.permissions = some p →
      update st uinput =
        (st, Except.error (ServiceError.userInput "error.permission-invalid" p))) ∧
    (checkPermissionsAreValid (some input.permissions) = some p →
      input.permissions.find? (fun q => !(getAllPermissions.contains q)) = some p) := by
    refine ⟨fun h => by simp only [create, h], fun h => by simp only [update, h],
      fun h => h⟩

/-- C3 witness: a concrete invalid permission is rejected by both
operations with the store returned unchanged. -/
theorem invalid_permission_rejected_first_witness :
    create emptyStore [] [] { activeUserId := none, channel := defaultChannel }
        { code := "c", description := "d", permissions := ["NotARealPermission"],
          channelId := none } =
      (emptyStore,
        Except.error (ServiceError.userInput "error.permission-invalid"
          "NotARealPermission")) ∧
    update emptyStore
        { id := 1, code := none, description := none,
          permissions := some ["NotARealPermission"] } =
      (emptyStore,
        Except.error (ServiceError.userInput "error.permission-invalid"
          "NotARealPermission")) :=
  ⟨(invalid_permission_rejected_first emptyStore [] []
      { activeUserId := none, channel := defaultChannel }
      { code := "c", description := "d", permissions := ["NotARealPermission"],
        channelId := none }
      { id := 1, code := none, description := none,
        permissions := some ["NotARealPermission"] } "NotARealPermission").1 rfl,
   (invalid_permission_rejected_first emptyStore [] []
      { activeUserId := none, channel := defaultChannel }
      { code := "c", description := "d", permissions := ["NotARealPermission"],
        channelId := none }
      { id := 1, code := none, description := none,
        permissions := some ["NotARealPermission"] } "NotARealPermission").2.1 rfl⟩

/-- Shape of a successful `update`: the found, non-protected role is
patched, saved, and the re-read returns exactly the patched role. -/
theorem update_ok_shape (st : RoleStore) (input : UpdateRoleInput) (role : Role)
    (hv : checkPermissionsAreValid input.permissions = none)
    (hf : findOne st input.id = some role)
    (hcode : (role.code == SUPER_ADMIN_ROLE_CODE || role.code == CUSTOMER_ROLE_CODE) = false) :
    update st input =
      (saveExisting st (patchRole role input), Except.ok (patchRole role input)) := by
  have hid : role.id = input.id := by simpa using List.find?_some hf
  have hsome : (st.roles.find? (fun x => x.id == role.id)).isSome = true := by
    unfold findOne at hf
    rw [hid, hf]
    rfl
  have hfind2 : findOne (saveExisting st (patchRole role input)) role.id =
      some (patchRole role input) := by
    unfold findOne saveExisting
    exact find_id_after_replace st.roles role.id (patchRole role input) rfl hsome
  simp only [update, hv, hf]
  rw [if_neg (by simp [hcode])]
  simp only [hfind2]

/-! ## C8 -/

/-- C8: `update` applies a partial patch: the returned (and saved) role is
the found role with exactly the supplied fields overwritten — absent
fields, and always the channel set and id, keep their prior values; a
supplied permission list is replaced by the deduplicated union with
`Authenticated`. -/
theorem update_partial_patch (st : RoleStore) (input : UpdateRoleInput) (role : Role)
    (hv : checkPermissionsAreValid input.permissions = none)
    (hf : findOne st input.id = some role)
    (hsa : role.code ≠ SUPER_ADMIN_ROLE_CODE) (hcu : role.code ≠ CUSTOMER_ROLE_CODE) :
    update st input =
      (saveExisting st (patchRole role input), Except.ok (patchRole role input)) ∧
    (patchRole role input).id = role.id ∧
    (patchRole role input).channels = role.channels ∧
    (input.code = none → (patchRole role input).code = role.code) ∧
    (∀ c, input.code = some c → (patchRole role input).code = c) ∧
    (input.description = none → (patchRole role input).description = role.description) ∧
    (∀ d, input.description = some d → (patchRole role input).description = d) ∧
    (input.permissions = none → (patchRole role input).permissions = role.permissions) ∧
    (∀ ps, input.permissions = some ps →
      (patchRole role input).permissions = unique ("Authenticated" :: ps)) := by
  have hcode : (role.code == SUPER_ADMIN_ROLE_CODE || role.code == CUSTOMER_ROLE_CODE)
      = false := by
    simp [hsa, hcu]
  refine ⟨update_ok_shape st input role hv hf hcode, rfl, rfl, ?_, ?_, ?_, ?_, ?_, ?_⟩
  · intro h
    simp [patchRole, h]
  · intro c h
    simp [patchRole, h]
  · intro h
    simp [patchRole, h]
  · intro d h
    simp [patchRole, h]
  · intro h
    simp [patchRole, h]
  · intro ps h
    simp [patchRole, h]

/-- A store holding only the custom `demoRole` (code "editor", id 10). -/
def storeWithEditor : RoleStore := { roles := [demoRole], nextId := 11, writes := 0 }

/-- C8 witness: a description-only update of a concrete custom role keeps
its code, permission set and channels. -/
theorem update_partial_patch_witness :
    update storeWithEditor
        { id := 10, code := none, description := some "new", permissions := none } =
      (saveExisting storeWithEditor
        (patchRole demoRole
          { id := 10, code := none, description := some "new", permissions := none }),
       Except.ok (patchRole demoRole
          { id := 10, code := none, description := some "new", permissions := none })) ∧
    (patchRole demoRole
        { id := 10, code := none, description := some "new", permissions := none }).permissions =
      demoRole.permissions ∧
    (patchRole demoRole
        { id := 10, code := none, description := some "new", permissions := none }).channels =
      demoRole.channels :=
  ⟨(update_partial_patch storeWithEditor
      { id := 10, code := none, description := some "new", permissions := none }
      demoRole rfl rfl (by decide) (by decide)).1,
   (update_partial_patch storeWithEditor
      { id := 10, code := none, description := some "new", permissions := none }
      demoRole rfl rfl (by decide) (by decide)).2.2.2.2.2.2.2.1 rfl,
   (update_partial_patch storeWithEditor
      { id := 10, code := none, description := some "new", permissions := none }
      demoRole rfl rfl (by decide) (by decide)).2.2.1⟩

/-! ## C4 -/

/-- C4: every role persisted by this core — via `createRoleForChannel`
(used by explicit create and by both bootstrap creations), via a successful
`create`, or via an `update` that supplies a permissions list — carries
`Authenticated` in a duplicate-free permission set. -/
theorem persisted_role_permissions_normalized :
    (∀ (st : RoleStore) (input : CreateRoleInput) (ch : Channel) (r : Role) (st2 : RoleStore),
      createRoleForChannel st input ch = (r, st2) →
      r ∈ st2.roles ∧ "Authenticated" ∈ r.permissions ∧ r.permissions.Nodup) ∧
    (∀ (st st2 : RoleStore) (uinput : UpdateRoleInput) (ps : List String) (r : Role),
      uinput.permissions = some ps → update st uinput = (st2, Except.ok r) →
      "Authenticated" ∈ r.permissions ∧ r.permissions.Nodup) ∧
    (∀ (st st2 : RoleStore) (channels : List Channel) (users : List User)
      (ctx : RequestContext) (input : CreateRoleInput) (r : Role),
      create st channels users ctx input = (st2, Except.ok r) →
      "Authenticated" ∈ r.permissions ∧ r.permissions.Nodup) := by
  refine ⟨?_, ?_, ?_⟩
  · intro st input ch r st2 h
    have h1 : (createRoleForChannel st input ch).1 = r := by rw [h]
    have h2 : (createRoleForChannel st input ch).2 = st2 := by rw [h]
    subst h1
    subst h2
    refine ⟨by simp [createRoleForChannel, insertRole], ?_, ?_⟩
    · rw [show ((createRoleForChannel st input ch).1).permissions =
          unique ("Authenticated" :: input.permissions) from rfl, mem_unique]
      exact List.mem_cons_self _ _
    · rw [show ((createRoleForChannel st input ch).1).permissions =
          unique ("Authenticated" :: input.permissions) from rfl]
      exact nodup_unique _
  · intro st st2 uinput ps r hps h
    cases hv : checkPermissionsAreValid uinput.permissions with
    | some p =>
      simp only [update, hv] at h
      simp [Prod.ext_iff] at h
    | none =>
      cases hfo : findOne st uinput.id with
      | none =>
        simp only [update, hv, hfo] at h
        simp [Prod.ext_iff] at h
      | some role =>
        by_cases hcode : (role.code == SUPER_ADMIN_ROLE_CODE ||
            role.code == CUSTOMER_ROLE_CODE) = true
        · simp only [update, hv, hfo, hcode, if_true] at h
          simp [Prod.ext_iff] at h
        · have hcb : (role.code == SUPER_ADMIN_ROLE_CODE ||
              role.code == CUSTOMER_ROLE_CODE) = false := by
            simpa using hcode
          rw [update_ok_shape st uinput role hv hfo hcb] at h
          have hr : r = patchRole role uinput := by
            have hsnd := congrArg Prod.snd h
            exact (Except.ok.inj hsnd).symm
          subst hr
          have hperm : (patchRole role uinput).permissions =
              unique ("Authenticated" :: ps) := by
            simp [patchRole, hps]
          rw [hperm]
          exact ⟨(mem_unique _ _).mpr (List.mem_cons_self _ _), nodup_unique _⟩
  · intro st st2 channels users ctx input r h
    cases hv : checkPermissionsAreValid (some input.permissions) with
    | some p =>
      simp only [create, hv] at h
      simp [Prod.ext_iff] at h
    | none =>
      cases hch : resolveTargetChannel channels ctx input.channelId with
      | error e =>
        simp only [create, hv, hch] at h
        simp [Prod.ext_iff] at h
      | ok ch =>
        cases hu : ctx.activeUserId with
        | none =>
          simp only [create, hv, hch, hu] at h
          simp [Prod.ext_iff] at h
        | some uid =>
          cases hperm : userHasPermissionOnChannel users uid ch.id "CreateAdministrator" with
          | error e =>
            simp only [create, hv, hch, hu, hperm] at h
            simp [Prod.ext_iff] at h
          | ok b =>
            cases b with
            | false =>
              simp only [create, hv, hch, hu, hperm] at h
              simp [Prod.ext_iff] at h
            | true =>
              simp only [create, hv, hch, hu, hperm] at h
              have hsnd := congrArg Prod.snd h
              have hr : r = (createRoleForChannel st input ch).1 :=
                (Except.ok.inj hsnd).symm
              subst hr
              rw [show ((createRoleForChannel st input ch).1).permissions =
                  unique ("Authenticated" :: input.permissions) from rfl]
              exact ⟨(mem_unique _ _).mpr (List.mem_cons_self _ _), nodup_unique _⟩

/-- A sample create input used by concrete witnesses. -/
def demoCreateInput : CreateRoleInput :=
  { code := "editor", description := "demo", permissions := ["ReadCatalog"],
    channelId := none }

/-- C4 witness: a concrete bootstrap-style creation yields a role whose
permission set contains `Authenticated` and has no duplicates. -/
theorem persisted_role_permissions_normalized_witness :
    (createRoleForChannel emptyStore demoCreateInput defaultChannel).1 ∈
      (createRoleForChannel emptyStore demoCreateInput defaultChannel).2.roles ∧
    "Authenticated" ∈
      ((createRoleForChannel emptyStore demoCreateInput defaultChannel).1).permissions ∧
    ((createRoleForChannel emptyStore demoCreateInput defaultChannel).1).permissions.Nodup :=
  persisted_role_permissions_normalized.1 emptyStore demoCreateInput defaultChannel
    (createRoleForChannel emptyStore demoCreateInput defaultChannel).1
    (createRoleForChannel emptyStore demoCreateInput defaultChannel).2 rfl

/-! ## C5 -/

/-- C5: `initRoles` ensures SuperAdmin before Customer (it is exactly their
composition in that order); from the empty store it creates each system
role exactly once, running it a second time changes nothing and performs no
persistence write, and the resulting SuperAdmin permission set equals the
catalog minus `Owner`. -/
theorem initRoles_idempotent_bootstrap :
    (∀ st : RoleStore, initRoles st =
      ensureCustomerRoleExists (ensureSuperAdminRoleExists st)) ∧
    (initRoles emptyStore).roles.countP
      (fun r => r.code == SUPER_ADMIN_ROLE_CODE) = 1 ∧
    (initRoles emptyStore).roles.countP
      (fun r => r.code == CUSTOMER_ROLE_CODE) = 1 ∧
    (initRoles (initRoles emptyStore)).roles.countP
      (fun r => r.code == SUPER_ADMIN_ROLE_CODE) = 1 ∧
    (initRoles (initRoles emptyStore)).roles.countP
      (fun r => r.code == CUSTOMER_ROLE_CODE) = 1 ∧
    (getRoleByCode (initRoles (initRoles emptyStore)) SUPER_ADMIN_ROLE_CODE).map
      Role.permissions = some allPermissionsExceptOwner ∧
    initRoles (initRoles emptyStore) = initRoles emptyStore ∧
    (initRoles (initRoles emptyStore)).writes = (initRoles emptyStore).writes := by
  refine ⟨fun st => rfl, ?_, ?_, ?_, ?_, ?_, ?_, ?_⟩ <;> decide

/-! ## C6 -/

/-- A SuperAdmin role that both misses a catalog permission and carries a
stale permission no longer in the catalog. -/
def staleSuperAdminRole : Role :=
  { id := 1, code := SUPER_ADMIN_ROLE_CODE, description := SUPER_ADMIN_ROLE_DESCRIPTION,
    permissions := ["Authenticated", "LegacyPerm"], channels := [1] }

/-- A store holding only `staleSuperAdminRole`. -/
def staleSuperAdminStore : RoleStore :=
  { roles := [staleSuperAdminRole], nextId := 2, writes := 0 }

/-- C6 counterexample: when the stored SuperAdmin set misses a catalog
permission, the healing step overwrites the whole set with
`allPermissionsExceptOwner`, dropping the stale `"LegacyPerm"` — so the
persisted set is not a superset of the prior stored set. -/
theorem superadmin_heal_not_always_superset :
    (getRoleByCode staleSuperAdminStore SUPER_ADMIN_ROLE_CODE).map Role.permissions =
      some ["Authenticated", "LegacyPerm"] ∧
    (getRoleByCode (ensureSuperAdminRoleExists staleSuperAdminStore)
        SUPER_ADMIN_ROLE_CODE).map Role.permissions = some allPermissionsExceptOwner ∧
    "LegacyPerm" ∉ allPermissionsExceptOwner := by
  refine ⟨by decide, by decide, by decide⟩

/-- C6 (amended): the SuperAdmin healing step never loses a stored
permission that is in the current grantable catalog
(`allPermissionsExceptOwner`); only stored permissions outside the current
catalog can be dropped, and only when the overwrite triggers. -/
theorem superadmin_heal_keeps_catalog_permissions (st : RoleStore) (r : Role) (p : String)
    (hf : getRoleByCode st SUPER_ADMIN_ROLE_CODE = some r)
    (hp : p ∈ r.permissions) (hcat : p ∈ allPermissionsExceptOwner) :
    ∃ r2, getRoleByCode (ensureSuperAdminRoleExists st) SUPER_ADMIN_ROLE_CODE = some r2 ∧
      p ∈ r2.permissions := by
  have hcode : r.code = SUPER_ADMIN_ROLE_CODE := by simpa using List.find?_some hf
  by_cases hall : (allPermissionsExceptOwner.all (fun q => r.permissions.contains q)) = true
  · refine ⟨r, ?_, hp⟩
    simp only [ensureSuperAdminRoleExists, hf]
    rw [if_pos hall]
    exact hf
  · have hallf : (allPermissionsExceptOwner.all (fun q => r.permissions.contains q))
        = false := by
      simpa using hall
    refine ⟨{ r with permissions := allPermissionsExceptOwner }, ?_, hcat⟩
    simp only [ensureSuperAdminRoleExists, hf]
    rw [if_neg (by rw [hallf]; exact Bool.false_ne_true)]
    unfold getRoleByCode saveExisting
    exact find_code_after_replace st.roles SUPER_ADMIN_ROLE_CODE r
      { r with permissions := allPermissionsExceptOwner } hf rfl hcode

/-- C6 witness: the amended theorem evaluated on a concrete store whose
SuperAdmin already has the full set. -/
theorem superadmin_heal_keeps_catalog_permissions_witness :
    ∃ r2, getRoleByCode (ensureSuperAdminRoleExists storeWithSuperAdmin)
        SUPER_ADMIN_ROLE_CODE = some r2 ∧ "ReadCatalog" ∈ r2.permissions :=
  superadmin_heal_keeps_catalog_permissions storeWithSuperAdmin storedSuperAdmin
    "ReadCatalog" rfl (by decide) (by decide)

/-! ## C7 -/

/-- C7 counterexample: with no acting user and a channelId that resolves to
no channel, `create` fails with `EntityNotFoundError` naming the channel —
not `ForbiddenError` — so the failure does reveal that the target channel
does not exist. -/
theorem create_no_user_dangling_channel_not_forbidden :
    (create emptyStore [] [] { activeUserId := none, channel := defaultChannel }
        { code := "x", description := "y", permissions := [], channelId := some 99 }).2 =
      Except.error (ServiceError.entityNotFound "Channel" 99) ∧
    (create emptyStore [] [] { activeUserId := none, channel := defaultChannel }
        { code := "x", description := "y", permissions := [], channelId := some 99 }).2 ≠
      Except.error ServiceError.forbidden :=
  ⟨rfl, fun h => ServiceError.noConfusion (Except.error.inj h)⟩

/-- C7 (amended): when the input permissions pass validation and the target
channel resolves (explicit channelId present in the store, or no channelId
so the context channel is used), a context with no acting user makes
`create` fail with `ForbiddenError` and perform no persistence write; a
dangling channelId instead fails earlier with `EntityNotFoundError`. -/
theorem create_no_active_user_forbidden (st : RoleStore) (channels : List Channel)
    (users : List User) (ctx : RequestContext) (input : CreateRoleInput) (ch : Channel)
    (hv : checkPermissionsAreValid (some input.permissions) = none)
    (hch : resolveTargetChannel channels ctx input.channelId = Except.ok ch)
    (hu : ctx.activeUserId = none) :
    create st channels users ctx input = (st, Except.error ServiceError.forbidden) := by
  simp only [create, hv, hch, hu]

/-- C7 witness: the amended theorem evaluated at a concrete empty store and
userless context. -/
theorem create_no_active_user_forbidden_witness :
    create emptyStore [defaultChannel] [] { activeUserId := none, channel := defaultChannel }
        demoCreateInput = (emptyStore, Except.error ServiceError.forbidden) :=
  create_no_active_user_forbidden emptyStore [defaultChannel] []
    { activeUserId := none, channel := defaultChannel } demoCreateInput
    defaultChannel rfl rfl rfl

/-! ## C9 -/

/-- The Customer role as freshly created by the bootstrap step on a given
store: next store id, the fixed code and description, the permission set
exactly `["Authenticated"]`, bound to exactly the default channel. -/
def freshCustomerRole (st : RoleStore) : Role :=
  { id := st.nextId, code := CUSTOMER_ROLE_CODE, description := CUSTOMER_ROLE_DESCRIPTION,
    permissions := ["Authenticated"], channels := [defaultChannel.id] }

/-- C9: the Customer bootstrap step writes nothing when a role with the
Customer code exists; when it is absent it appends exactly one role, bound
to exactly the default channel, with permission set exactly
`["Authenticated"]` and the fixed code and description (one write). -/
theorem ensureCustomerRole_spec (st : RoleStore) :
    ((getRoleByCode st CUSTOMER_ROLE_CODE).isSome = true →
      ensureCustomerRoleExists st = st) ∧
    (getRoleByCode st CUSTOMER_ROLE_CODE = none →
      ensureCustomerRoleExists st =
        { roles := st.roles ++ [freshCustomerRole st],
          nextId := st.nextId + 1, writes := st.writes + 1 }) := by
  constructor
  · intro h
    cases hc : getRoleByCode st CUSTOMER_ROLE_CODE with
    | none => rw [hc] at h; simp at h
    | some r0 => simp [ensureCustomerRoleExists, hc]
  · intro h
    simp only [ensureCustomerRoleExists, h, createRoleForChannel, insertRole]
    rfl

/-- C9 witness: from the empty store, the Customer bootstrap step creates
exactly the fixed Customer role on the default channel. -/
theorem ensureCustomerRole_spec_witness :
    ensureCustomerRoleExists emptyStore =
      { roles := [freshCustomerRole emptyStore], nextId := 2, writes := 1 } :=
  (ensureCustomerRole_spec emptyStore).2 rfl

/-! ## C10 -/

/-- C10: the catalog used for validation includes `Owner` and
`Authenticated`; `getAllPermissions` returns every catalog member;
validation rejects no catalog member (and no list of catalog members), so a
custom role can explicitly carry `Owner`, even though `Owner` is excluded
from the SuperAdmin bootstrap set. -/
theorem owner_in_catalog_and_grantable :
    "Owner" ∈ getAllPermissions ∧
    "Authenticated" ∈ getAllPermissions ∧
    getAllPermissions = permissionCatalog ∧
    (∀ p, p ∈ getAllPermissions → checkPermissionsAreValid (some [p]) = none) ∧
    (∀ ps, (∀ p, p ∈ ps → p ∈ getAllPermissions) →
      checkPermissionsAreValid (some ps) = none) ∧
    "Owner" ∉ allPermissionsExceptOwner ∧
    (∃ r, (update storeWithEditor
        { id := 10, code := none, description := none,
          permissions := some ["Owner"] }).2 = Except.ok r ∧
      "Owner" ∈ r.permissions) := by
  refine ⟨by decide, by decide, rfl, ?_, ?_, by decide, ?_⟩
  · intro p hp
    have hc : decide (p ∈ getAllPermissions) = true := decide_eq_true hp
    simp [checkPermissionsAreValid, List.find?, hc]
  · intro ps hps
    simp only [checkPermissionsAreValid]
    rw [List.find?_eq_none]
    intro x hx
    simp [hps x hx]
  · exact ⟨patchRole demoRole
      { id := 10, code := none, description := none, permissions := some ["Owner"] },
      rfl, by decide⟩

/-- C10 witness: the validation conjunct evaluated at `Owner` itself. -/
theorem owner_in_catalog_and_grantable_witness :
    checkPermissionsAreValid (some ["Owner"]) = none :=
  owner_in_catalog_and_grantable.2.2.2.1 "Owner" (by decide)

end RoleService
